import Mathlib

/-!
# Verification of the claude-jellyfin-organizer core

A shallow embedding of the Go program in `src/`: the path sandbox
(`tools.ValidatePath`, `tools.validateAndResolvePath`,
`tools.validateJellyfinPath`), the filesystem tools (`read_file`,
`list_directory`, `copy_file`, `rename_jellyfin_media`), and the
conversation loop of `main.go` (`Main.executeTool`, `Main.runLoop`).

Strings model Go strings (the sources only manipulate ASCII paths, so
byte positions and character positions coincide; basic string
operations are implemented structurally over the character list so
that closed instances evaluate inside the kernel).  The filesystem is
an association list from OS-resolved path strings to entries; Go `os`
calls are modelled as pure operations on that state.  Fallible Go code
returning `(T, error)` becomes `Except String T`; handlers that can
also `panic` return a three-valued `HandlerOut`.
-/

set_option autoImplicit false

/-- Split a character list at every `/`; `cur` accumulates the current
element reversed.  Mirrors Go `strings.Split(p, "/")`. -/
def splitChars : List Char → List Char → List String
  | [], cur => [String.mk cur.reverse]
  | c :: rest, cur =>
    if c = '/' then String.mk cur.reverse :: splitChars rest []
    else splitChars rest (c :: cur)

/-- Go `strings.Split(p, "/")`. -/
def splitSlash (p : String) : List String := splitChars p.data []

/-- Go `strings.Join(l, sep)`. -/
def strJoin (sep : String) : List String → String
  | [] => ""
  | [s] => s
  | s :: rest => s ++ sep ++ strJoin sep rest

/-- Go `strings.HasPrefix(b, a)`: `a` is a raw string prefix of `b`. -/
def strIsPre (a b : String) : Bool := List.isPrefixOf a.data b.data

/-- Go `s[:n]` for a string known to have at least `n` bytes. -/
def strTake (s : String) (n : Nat) : String := String.mk (s.data.take n)

/-- Go `len(s)`. -/
def strLen (s : String) : Nat := s.data.length

/-- Go `strings.Contains(s, "..")`: two consecutive dots anywhere in
the string. -/
def containsDotDot (s : String) : Bool := go s.data
where go : List Char → Bool
  | '.' :: '.' :: _ => true
  | _ :: rest => go rest
  | [] => false

/-- Go `strings.ToLower` restricted to ASCII, which is all the sources
feed it. -/
def asciiLower (s : String) : String := String.mk (s.data.map Char.toLower)

namespace filepath

/-- One step of Go `path.Clean`'s element loop: skip empty and `.`
elements, let `..` pop the last kept element (except at a root, or when
nothing is left to pop in a relative path), and keep everything else.
The accumulator holds the kept elements in reverse. -/
def cleanStep (rooted : Bool) (acc : List String) (s : String) : List String :=
  if s = "" ∨ s = "." then acc
  else if s = ".." then
    match acc with
    | [] => if rooted then [] else [".."]
    | a :: rest => if a = ".." then ".." :: a :: rest else rest
  else s :: acc

/-- Go `filepath.IsAbs` on Unix. -/
def IsAbs (p : String) : Bool :=
  match p.data with
  | '/' :: _ => true
  | _ => false

/-- Go `filepath.Clean` on Unix. -/
def Clean (p : String) : String :=
  if p = "" then "."
  else
    let rooted := IsAbs p
    let segs := ((splitSlash p).foldl (cleanStep rooted) []).reverse
    if segs = [] then (if rooted then "/" else ".")
    else (if rooted then "/" else "") ++ strJoin "/" segs

/-- Go `filepath.Join(a, b)` on Unix: drop empty elements, join with
`/`, `Clean` the result; all-empty input stays empty. -/
def Join (a b : String) : String :=
  if a = "" then (if b = "" then "" else Clean b)
  else if b = "" then Clean a
  else Clean (a ++ "/" ++ b)

/-- Go `filepath.Abs` on Unix: absolute paths are `Clean`ed, relative
paths are joined to the working directory (`cwd` stands for the
process working directory returned by `os.Getwd`). -/
def Abs (cwd p : String) : String := if IsAbs p then Clean p else Join cwd p

/-- Path elements of an already-`Clean`ed path: none for `.`, else the
nonempty `/`-separated components. -/
def segsOfClean (p : String) : List String :=
  if p = "." then [] else (splitSlash p).filter (fun s => s ≠ "")

/-- Length of the common leading run of two element lists. -/
def commonLen : List String → List String → Nat
  | a :: as, b :: bs => if a = b then commonLen as bs + 1 else 0
  | _, _ => 0

/-- Go `filepath.Rel` on Unix, on the inputs the program feeds it
(outputs of `filepath.Abs`, hence `Clean`ed): equal paths give `.`,
mixed absolute/relative arguments give an error, otherwise the result
climbs out of the uncommon part of the base with `..` elements and
descends into the target. -/
def Rel (basep targp : String) : Except String String :=
  let base := Clean basep
  let targ := Clean targp
  if base = targ then .ok "."
  else if (IsAbs base) ≠ (IsAbs targ) then
    .error ("Rel: can't make " ++ targ ++ " relative to " ++ base)
  else
    let bs := segsOfClean base
    let ts := segsOfClean targ
    let n := commonLen bs ts
    if (bs.drop n).contains ".." then
      .error ("Rel: can't make " ++ targ ++ " relative to " ++ base)
    else
      let rel := List.replicate (bs.length - n) ".." ++ ts.drop n
      if rel = [] then .ok "." else .ok (strJoin "/" rel)

/-- Index of the last `/` in a character list (`i` is the index of the
head, `acc` the best index seen so far). -/
def lastSlashIdx : List Char → Nat → Option Nat → Option Nat
  | [], _, acc => acc
  | c :: cs, i, acc => lastSlashIdx cs (i + 1) (if c = '/' then some i else acc)

/-- Go `filepath.Dir` on Unix: everything up to and including the final
`/`, `Clean`ed; `.` when there is no `/`. -/
def Dir (p : String) : String :=
  match lastSlashIdx p.data 0 none with
  | none => "."
  | some i => Clean (String.mk (p.data.take (i + 1)))

/-- Scan for the extension, walking the characters from the end
(`acc` holds the characters already passed, in order). -/
def extScan : List Char → List Char → String
  | [], _ => ""
  | c :: rest, acc =>
    if c = '/' then ""
    else if c = '.' then String.mk ('.' :: acc)
    else extScan rest (c :: acc)

/-- Go `filepath.Ext`: the suffix from the final dot in the final path
element, empty when there is none. -/
def Ext (p : String) : String := extScan p.data.reverse []

end filepath

/-- The Go check `relPath != ".." && !(len(relPath) > 2 && relPath[:3]
== "../")` shared by all `filepath.Rel`-based containment variants. -/
def relInside (r : String) : Bool :=
  r ≠ ".." && !(decide (strLen r > 2) && strTake r 3 = "../")

/-- The environment variables the tools read: `JELLYFIN_SHOWS_FOLDER`,
`JELLYFIN_MOVIES_FOLDER`, `SOURCE_FOLDER`.  As in Go, an unset
variable reads as the empty string. -/
structure Env where
  shows : String
  movies : String
  source : String

namespace tools

/-- `ValidatePath` from `src/unnamed/part_005`: reject any input
containing the substring `..`, then take the absolute form of the
input and accept iff some nonempty configured folder's absolute form
is a raw string prefix (`strings.HasPrefix`) of it. -/
def ValidatePath (env : Env) (cwd : String) (inputPath : String) : Except String Unit :=
  if containsDotDot inputPath then
    .error ("path contains invalid directory traversal: " ++ inputPath)
  else
    let absPath := filepath.Abs cwd inputPath
    let permittedFolders := [env.shows, env.movies, env.source]
    if permittedFolders.any (fun folder =>
        folder ≠ "" && strIsPre (filepath.Abs cwd folder) absPath) then
      .ok ()
    else
      .error ("path is not within permitted folders: " ++ inputPath)

/-- `validateAndResolvePath` from `src/tools/copy_file.go`: join the
input to the shows folder and accept if `filepath.Rel` from the
absolute shows folder stays inside, else the same with the movies
folder, else reject.  Returns the joined (not absolutized) path, as
the source does. -/
def validateAndResolvePath (env : Env) (cwd : String) (inputPath : String) :
    Except String String :=
  if env.shows = "" ∨ env.movies = "" then
    .error "JELLYFIN_SHOWS_FOLDER or JELLYFIN_MOVIES_FOLDER environment variable not set"
  else
    let showsPath := filepath.Join env.shows inputPath
    let tryShows :=
      match filepath.Rel (filepath.Abs cwd env.shows) (filepath.Abs cwd showsPath) with
      | .ok r => relInside r
      | .error _ => false
    if tryShows then .ok showsPath
    else
      let moviesPath := filepath.Join env.movies inputPath
      let tryMovies :=
        match filepath.Rel (filepath.Abs cwd env.movies) (filepath.Abs cwd moviesPath) with
        | .ok r => relInside r
        | .error _ => false
      if tryMovies then .ok moviesPath
      else .error "path must be within Jellyfin media directories"

/-- `validateJellyfinPath` from `src/tools/rename_jellyfin_media.go`:
first try the input as an absolute path inside the shows or movies
folder, then as a path relative to each folder in turn; return the
accepted absolute path. -/
def validateJellyfinPath (env : Env) (cwd : String) (inputPath : String) :
    Except String String :=
  if env.shows = "" ∨ env.movies = "" then
    .error "JELLYFIN_SHOWS_FOLDER or JELLYFIN_MOVIES_FOLDER environment variable not set"
  else
    let absPath := filepath.Abs cwd inputPath
    let absShowsFolder := filepath.Abs cwd env.shows
    let absMoviesFolder := filepath.Abs cwd env.movies
    let okAt := fun (base targ : String) =>
      match filepath.Rel base targ with
      | .ok r => relInside r
      | .error _ => false
    if okAt absShowsFolder absPath then .ok absPath
    else if okAt absMoviesFolder absPath then .ok absPath
    else
      let absShowsPath := filepath.Abs cwd (filepath.Join env.shows inputPath)
      if okAt absShowsFolder absShowsPath then .ok absShowsPath
      else
        let absMoviesPath := filepath.Abs cwd (filepath.Join env.movies inputPath)
        if okAt absMoviesFolder absMoviesPath then .ok absMoviesPath
        else
          .error ("path must be within Jellyfin media directories (" ++
            env.shows ++ " or " ++ env.movies ++ ")")

end tools

/-- Segment-wise containment, following the spec's words (section 4.1
step 4 and section 8): canonicalize the candidate and every root, and
accept iff the candidate's path elements extend some nonempty root's
path elements — a structural path-segment comparison, never a raw
string-prefix test. -/
def specContainment (roots : List String) (cwd p : String) : Bool :=
  roots.any (fun r =>
    r ≠ "" &&
      List.isPrefixOf (filepath.segsOfClean (filepath.Abs cwd r))
        (filepath.segsOfClean (filepath.Abs cwd p)))

/-- A filesystem entry: a regular file with its byte content, or a
directory.  Directory children are separate bindings in the map. -/
inductive Entry where
  | file (content : String)
  | dir
deriving DecidableEq, Repr

/-- The filesystem state: an association list from OS-resolved
(absolute, `Clean`ed) path strings to entries.  The root directory `/`
is implicit and always exists. -/
abbrev FS := List (String × Entry)

namespace FS

/-- Entry at a path, if any (models a successful `os.Stat`). -/
def find : FS → String → Option Entry
  | [], _ => none
  | (k, e) :: fs, p => if k = p then some e else find fs p

/-- Bind a path to an entry, replacing any existing binding. -/
def set : FS → String → Entry → FS
  | [], p, e => [(p, e)]
  | (k, e0) :: fs, p, e => if k = p then (k, e) :: fs else (k, e0) :: set fs p e

/-- Remove every binding of a path. -/
def erase : FS → String → FS
  | [], _ => []
  | (k, e) :: fs, p => if k = p then erase fs p else (k, e) :: erase fs p

end FS

/-- Nonempty leading runs of a list, shortest first. -/
def leadRuns {α : Type} : List α → List (List α)
  | [] => []
  | s :: rest => [s] :: (leadRuns rest).map (s :: ·)

/-- Every ancestor of an absolute path, itself included, outermost
first; the implicit root `/` is excluded. -/
def ancestorPaths (p : String) : List String :=
  (leadRuns (filepath.segsOfClean p)).map (fun l => "/" ++ strJoin "/" l)

/-- Parent of an absolute path (the root is its own parent). -/
def parentOfAbs (p : String) : String :=
  match (filepath.segsOfClean p).dropLast with
  | [] => "/"
  | l => "/" ++ strJoin "/" l

/-- Whether a regular file sits at this path. -/
def isFileAt (fs : FS) (a : String) : Bool :=
  match FS.find fs a with
  | some (.file _) => true
  | _ => false

/-- Whether a directory sits at this path (the root always does). -/
def dirExistsAt (fs : FS) (d : String) : Bool :=
  d = "/" ||
    match FS.find fs d with
    | some .dir => true
    | _ => false

/-- One level of `os.MkdirAll`: create the directory unless something
already sits there. -/
def mkdirStep (fs : FS) (a : String) : FS :=
  match FS.find fs a with
  | some _ => fs
  | none => FS.set fs a .dir

/-- `os.MkdirAll`: fails without creating anything when a regular file
blocks the chain (as on a real filesystem, where everything above a
file already exists); otherwise creates every missing ancestor
directory. -/
def MkdirAll (fs : FS) (p : String) : Except String FS :=
  if (ancestorPaths p).any (fun a => isFileAt fs a) then
    .error ("mkdir " ++ p ++ ": not a directory")
  else
    .ok ((ancestorPaths p).foldl mkdirStep fs)

/-- `os.Create`: truncate an existing regular file to empty, or create
a new empty file when the parent directory exists; fails on a
directory or a missing parent. -/
def osCreate (fs : FS) (p : String) : Except String FS :=
  match FS.find fs p with
  | some .dir => .error ("open " ++ p ++ ": is a directory")
  | some (.file _) => .ok (FS.set fs p (.file ""))
  | none =>
    if dirExistsAt fs (parentOfAbs p) then .ok (FS.set fs p (.file ""))
    else .error ("open " ++ p ++ ": no such file or directory")

/-- Proper segment-wise ancestry between absolute paths. -/
def isProperAncestorOf (a b : String) : Bool :=
  let as := filepath.segsOfClean a
  let bs := filepath.segsOfClean b
  List.isPrefixOf as bs && decide (as.length < bs.length)

/-- `os.Rename`: move the entry bound at `src` to `tgt`.  Fails when
the source is missing, when the target would sit inside the source, or
when the target's parent directory does not exist. -/
def osRename (fs : FS) (src tgt : String) : Except String String × FS :=
  match FS.find fs src with
  | none => (.error ("rename " ++ src ++ ": no such file or directory"), fs)
  | some e =>
    if isProperAncestorOf src tgt then
      (.error ("rename " ++ src ++ ": invalid argument"), fs)
    else if dirExistsAt fs (parentOfAbs tgt) then
      (.ok "", FS.set (FS.erase fs src) tgt e)
    else
      (.error ("rename " ++ tgt ++ ": no such file or directory"), fs)

/-- Outcome of one Go tool handler: a `(string, nil)` return, a
`("", err)` return, or a `panic`. -/
inductive HandlerOut where
  | ok (s : String)
  | err (s : String)
  | panics
deriving DecidableEq, Repr

/-- A raw tool argument payload (`json.RawMessage`): either bytes that
unmarshal into the declared input shape, or malformed bytes carrying
the decoder's error text. -/
inductive RawArg (α : Type) where
  | malformed (msg : String)
  | parsed (a : α)

/-- `json.Unmarshal` into the declared input struct. -/
def unmarshal {α : Type} : RawArg α → Except String α
  | .malformed m => .error m
  | .parsed a => .ok a

/-- The image/video extension denylist of `ReadFile` in
`src/unnamed/part_000`. -/
def imageVideoExts : List String :=
  [".jpg", ".jpeg", ".png", ".gif", ".bmp", ".webp", ".svg", ".tiff", ".tif",
   ".ico", ".mp4", ".avi", ".mkv", ".mov", ".wmv", ".flv", ".webm", ".m4v",
   ".3gp", ".ogv", ".vob", ".ts", ".mts", ".m2ts"]

namespace tools

/-- Input shape of `read_file` (`src/unnamed/part_000`): a path and a
byte count (`0` means the whole file). -/
structure ReadFileInput where
  path : String
  bytes : Int

/-- `ReadFile` from `src/unnamed/part_000`: validate the path with
`ValidatePath`, reject image/video extensions (lower-cased) before any
file is opened, then read the whole file (`bytes = 0`) or the first
`bytes` bytes.  A negative `bytes` reaches `make([]byte, n)` with a
negative length after a successful `os.Open`, which panics. -/
def ReadFile (env : Env) (cwd : String) (fs : FS) (input : RawArg ReadFileInput) :
    HandlerOut :=
  match unmarshal input with
  | .error m => .err ("failed to unmarshal input: " ++ m)
  | .ok inp =>
    match ValidatePath env cwd inp.path with
    | .error e => .err ("access denied: " ++ e)
    | .ok _ =>
      let ext := asciiLower (filepath.Ext inp.path)
      if imageVideoExts.contains ext then
        .err ("cannot read image or video files: " ++ inp.path)
      else if inp.bytes = 0 then
        match FS.find fs (filepath.Abs cwd inp.path) with
        | some (.file c) => .ok c
        | some .dir => .err ("read " ++ inp.path ++ ": is a directory")
        | none => .err ("open " ++ inp.path ++ ": no such file or directory")
      else
        match FS.find fs (filepath.Abs cwd inp.path) with
        | none => .err ("open " ++ inp.path ++ ": no such file or directory")
        | some e =>
          if inp.bytes < 0 then .panics
          else
            match e with
            | .file c => .ok (strTake c inp.bytes.toNat)
            | .dir => .err ("read " ++ inp.path ++ ": is a directory")

/-- Input shape of `list_directory` (`src/unnamed/part_002`). -/
structure ListDirectoryInput where
  path : String

/-- Name of `p` as a direct child of directory `d`, if it is one. -/
def childName (d p : String) : Option String :=
  let ds := filepath.segsOfClean d
  let ps := filepath.segsOfClean p
  if ps.length = ds.length + 1 ∧ List.isPrefixOf ds ps then ps.getLast? else none

/-- Bytewise string order, as Go's `sort` compares filenames. -/
def strLeB (a b : String) : Bool := go a.data b.data
where go : List Char → List Char → Bool
  | [], _ => true
  | _ :: _, [] => false
  | x :: xs, y :: ys =>
    if x.val < y.val then true else if y.val < x.val then false else go xs ys

/-- Insertion step of the name sort `os.ReadDir` performs. -/
def insertByName (x : String × Entry) : List (String × Entry) → List (String × Entry)
  | [] => [x]
  | y :: ys => if strLeB x.1 y.1 then x :: y :: ys else y :: insertByName x ys

/-- Sort directory entries by name, as `os.ReadDir` guarantees. -/
def sortByName (l : List (String × Entry)) : List (String × Entry) :=
  l.foldr insertByName []

/-- `os.ReadDir`: the direct children of a directory, sorted by name. -/
def ReadDir (fs : FS) (d : String) : Except String (List (String × Entry)) :=
  match FS.find fs d with
  | none => .error ("open " ++ d ++ ": no such file or directory")
  | some (.file _) => .error ("readdirent " ++ d ++ ": not a directory")
  | some .dir =>
    .ok (sortByName (fs.filterMap (fun pe =>
      (childName d pe.1).map (fun n => (n, pe.2)))))

/-- The listing text: one line per entry, directories suffixed with
`/`, files annotated with their byte size. -/
def formatEntries : List (String × Entry) → String
  | [] => ""
  | (n, .dir) :: rest => n ++ "/\n" ++ formatEntries rest
  | (n, .file c) :: rest =>
    n ++ " (" ++ toString (strLen c) ++ " bytes)\n" ++ formatEntries rest

/-- `ListDirectory` from `src/unnamed/part_002`: validate the path
with `ValidatePath`, then list the directory without recursing. -/
def ListDirectory (env : Env) (cwd : String) (fs : FS)
    (input : RawArg ListDirectoryInput) : HandlerOut :=
  match unmarshal input with
  | .error m => .err m
  | .ok inp =>
    match ValidatePath env cwd inp.path with
    | .error e => .err ("access denied: " ++ e)
    | .ok _ =>
      match ReadDir fs (filepath.Abs cwd inp.path) with
      | .error e => .err e
      | .ok entries => .ok (formatEntries entries)

/-- Input shape of `copy_file`. -/
structure CopyFileInput where
  initialPath : String
  endingPath : String

/-- `CopyFile` from `src/tools/copy_file.go`: validate and resolve
both paths, require the source to exist, create the destination's
parent directories, open the source, create (truncate) the
destination, and copy the source's bytes as they stand after the
truncation — the stream reads through the opened descriptor, so a
destination equal to the source reads back the truncated file. -/
def CopyFile (env : Env) (cwd : String) (fs : FS) (input : RawArg CopyFileInput) :
    HandlerOut × FS :=
  match unmarshal input with
  | .error m => (.err ("failed to unmarshal input: " ++ m), fs)
  | .ok inp =>
    match validateAndResolvePath env cwd inp.initialPath with
    | .error e => (.err ("invalid source path: " ++ e), fs)
    | .ok srcPath =>
      match validateAndResolvePath env cwd inp.endingPath with
      | .error e => (.err ("invalid destination path: " ++ e), fs)
      | .ok dstPath =>
        let srcK := filepath.Abs cwd srcPath
        let dstK := filepath.Abs cwd dstPath
        if (FS.find fs srcK).isNone then
          (.err ("source file does not exist: " ++ srcPath), fs)
        else
          match MkdirAll fs (filepath.Abs cwd (filepath.Dir dstPath)) with
          | .error e => (.err ("failed to create destination directory: " ++ e), fs)
          | .ok fs1 =>
            match FS.find fs1 srcK with
            | none =>
              (.err ("failed to open source file: open " ++ srcPath ++
                ": no such file or directory"), fs1)
            | some _ =>
              match osCreate fs1 dstK with
              | .error e => (.err ("failed to create destination file: " ++ e), fs1)
              | .ok fs2 =>
                match FS.find fs2 srcK with
                | some (.file c) =>
                  (.ok ("Successfully copied file from " ++ srcPath ++ " to " ++ dstPath),
                    FS.set fs2 dstK (.file c))
                | _ => (.err "failed to copy file contents: read: is a directory", fs2)

/-- `CopyFile` from `src/unnamed/part_004`: identical to the
`copy_file.go` version except that only the destination is validated
(with `ValidatePath`) — the source path is used for `os.Stat`,
`os.Open` and the copy without any containment check. -/
def CopyFile_v4 (env : Env) (cwd : String) (fs : FS) (input : RawArg CopyFileInput) :
    HandlerOut × FS :=
  match unmarshal input with
  | .error m => (.err ("failed to unmarshal input: " ++ m), fs)
  | .ok inp =>
    let srcPath := inp.initialPath
    match ValidatePath env cwd inp.endingPath with
    | .error e => (.err e, fs)
    | .ok _ =>
      let dstPath := inp.endingPath
      let srcK := filepath.Abs cwd srcPath
      let dstK := filepath.Abs cwd dstPath
      if (FS.find fs srcK).isNone then
        (.err ("source file does not exist: " ++ srcPath), fs)
      else
        match MkdirAll fs (filepath.Abs cwd (filepath.Dir dstPath)) with
        | .error e => (.err ("failed to create destination directory: " ++ e), fs)
        | .ok fs1 =>
          match FS.find fs1 srcK with
          | none =>
            (.err ("failed to open source file: open " ++ srcPath ++
              ": no such file or directory"), fs1)
          | some _ =>
            match osCreate fs1 dstK with
            | .error e => (.err ("failed to create destination file: " ++ e), fs1)
            | .ok fs2 =>
              match FS.find fs2 srcK with
              | some (.file c) =>
                (.ok ("Successfully copied file from " ++ srcPath ++ " to " ++ dstPath),
                  FS.set fs2 dstK (.file c))
              | _ => (.err "failed to copy file contents: read: is a directory", fs2)

/-- Input shape of `rename_jellyfin_media`. -/
structure RenameJellyfinMediaInput where
  sourcePath : String
  targetPath : String

/-- `RenameJellyfinMedia` from `src/tools/rename_jellyfin_media.go`:
validate both paths with `validateJellyfinPath`, require the source to
exist, create the target's parent directories, refuse an existing
target, then `os.Rename`. -/
def RenameJellyfinMedia (env : Env) (cwd : String) (fs : FS)
    (input : RawArg RenameJellyfinMediaInput) : HandlerOut × FS :=
  match unmarshal input with
  | .error m => (.err ("failed to unmarshal input: " ++ m), fs)
  | .ok inp =>
    match validateJellyfinPath env cwd inp.sourcePath with
    | .error e => (.err ("invalid source path: " ++ e), fs)
    | .ok sourcePath =>
      match validateJellyfinPath env cwd inp.targetPath with
      | .error e => (.err ("invalid target path: " ++ e), fs)
      | .ok targetPath =>
        let srcK := filepath.Abs cwd sourcePath
        let tgtK := filepath.Abs cwd targetPath
        if (FS.find fs srcK).isNone then
          (.err ("source path does not exist: " ++ sourcePath), fs)
        else
          match MkdirAll fs (filepath.Abs cwd (filepath.Dir targetPath)) with
          | .error e => (.err ("failed to create target directory: " ++ e), fs)
          | .ok fs1 =>
            if (FS.find fs1 tgtK).isSome then
              (.err ("target path already exists: " ++ targetPath), fs1)
            else
              match osRename fs1 srcK tgtK with
              | (.error e, fs2) => (.err ("failed to move/rename: " ++ e), fs2)
              | (.ok _, fs2) =>
                (.ok ("Successfully moved/renamed " ++ sourcePath ++ " to " ++ targetPath),
                  fs2)

end tools

namespace Main

/-- Input shape of the main-package `read_file` (`src/tools.go`). -/
structure ReadFileInput where
  path : String

/-- `ReadFile` from `src/tools.go` (package `main`): panics on an
unmarshal failure (`panic(err)`), and otherwise reads the file at the
given path with no containment check whatsoever. -/
def ReadFile (cwd : String) (fs : FS) (input : RawArg ReadFileInput) : HandlerOut :=
  match unmarshal input with
  | .error _ => .panics
  | .ok inp =>
    match FS.find fs (filepath.Abs cwd inp.path) with
    | some (.file c) => .ok c
    | some .dir => .err ("read " ++ inp.path ++ ": is a directory")
    | none => .err ("open " ++ inp.path ++ ": no such file or directory")

end Main

namespace Main

/-- A content block of a model response: text, or a tool call carrying
a correlation id, a tool name, and a raw argument payload of type
`Raw`. -/
inductive CBlock (Raw : Type) where
  | text (s : String)
  | toolUse (id name : String) (input : Raw)

/-- A tool result block (`anthropic.NewToolResultBlock`): the call's
correlation id, the output text, and the failure flag. -/
structure ResultBlock where
  toolUseId : String
  content : String
  isError : Bool
deriving DecidableEq, Repr

/-- One message of the conversation (`anthropic.MessageParam`):
operator text, a batch of tool results (sent as a user message, as the
SDK does), or an assistant message. -/
inductive MsgParam (Raw : Type) where
  | user (text : String)
  | toolResults (rs : List ResultBlock)
  | assistant (blocks : List (CBlock Raw))

/-- `ToolDefinition` from `src/main.go` / `src/tools.go`: the loop
dispatches on `name` and invokes `fn`; the description and input
schema only travel to the model, so they carry no behavior here. -/
structure ToolDefinition (Raw : Type) where
  name : String
  description : String
  fn : Raw → HandlerOut

/-- `Agent.executeTool` from `src/main.go`: find the first tool with
the requested name; absent names yield a failure result reading "tool
not found" without invoking anything; otherwise the handler's return
or error becomes the result.  `none` models the process dying of a
handler panic, which produces no result at all. -/
def executeTool {Raw : Type} (toolsL : List (ToolDefinition Raw))
    (id name : String) (input : Raw) : Option ResultBlock :=
  match toolsL.find? (fun t => t.name == name) with
  | none => some ⟨id, "tool not found", true⟩
  | some t =>
    match t.fn input with
    | .ok s => some ⟨id, s, false⟩
    | .err e => some ⟨id, e, true⟩
    | .panics => none

/-- The tool-dispatch loop over one model response's content blocks:
text blocks are printed (no conversation effect), tool-use blocks are
executed in order and their results collected. -/
def collectResults {Raw : Type} (toolsL : List (ToolDefinition Raw)) :
    List (CBlock Raw) → Option (List ResultBlock)
  | [] => some []
  | .text _ :: rest => collectResults toolsL rest
  | .toolUse id name inp :: rest =>
    match executeTool toolsL id name inp with
    | none => none
    | some b =>
      match collectResults toolsL rest with
      | none => none
      | some rs => some (b :: rs)

/-- The tail of one iteration of `Agent.Run` after a successful model
call: append the assistant message; execute its tool calls; with no
tool results set `readUserInput` and continue, otherwise append all
results as one user message and continue without reading input. -/
def afterModel {Raw : Type} (toolsL : List (ToolDefinition Raw))
    (convo : List (MsgParam Raw)) (msg : List (CBlock Raw)) :
    Option (List (MsgParam Raw) × Bool) :=
  let convo1 := convo ++ [.assistant msg]
  match collectResults toolsL msg with
  | none => none
  | some rs =>
    if rs = [] then some (convo1, true)
    else some (convo1 ++ [.toolResults rs], false)

/-- How `Agent.Run` ends: `cleanExit` is the `break` when the operator
input stream is exhausted (the function then returns `nil`);
`modelError` is the `return err` after a failed model call; `panicked`
models an unrecovered handler panic; `stuck` is an artifact of the
embedding (fuel or scripted model responses exhausted). -/
inductive RunExit where
  | cleanExit
  | modelError (e : String)
  | panicked
  | stuck
deriving DecidableEq, Repr

/-- `Agent.Run` from `src/main.go`, driven by a script: `inputs` are
the operator lines `getUserMessage` will deliver (exhaustion models
`ok == false`), `responses` the successive model-call outcomes.
Returns how the loop ended and the conversation built up to then. -/
def runLoop {Raw : Type} (toolsL : List (ToolDefinition Raw)) :
    Nat → Bool → List String → List (Except String (List (CBlock Raw))) →
    List (MsgParam Raw) → RunExit × List (MsgParam Raw)
  | 0, _, _, _, convo => (.stuck, convo)
  | fuel + 1, readUserInput, inputs, responses, convo =>
    let readStep :=
      if readUserInput then
        match inputs with
        | [] => none
        | u :: us => some (convo ++ [.user u], us)
      else some (convo, inputs)
    match readStep with
    | none => (.cleanExit, convo)
    | some (convo1, inputs1) =>
      match responses with
      | [] => (.stuck, convo1)
      | .error e :: _ => (.modelError e, convo1)
      | .ok msg :: responses1 =>
        match afterModel toolsL convo1 msg with
        | none => (.panicked, convo1 ++ [.assistant msg])
        | some (convo2, readNext) =>
          runLoop toolsL fuel readNext inputs1 responses1 convo2

end Main

namespace Main

/-- Whether a content block is a tool call. -/
def isToolUseB {Raw : Type} : CBlock Raw → Bool
  | .toolUse _ _ _ => true
  | .text _ => false

/-- Every scripted model call in the list succeeds. -/
def allOkB {Raw : Type} (responses : List (Except String (List (CBlock Raw)))) : Bool :=
  responses.all (fun r => match r with | .ok _ => true | .error _ => false)

/-- No registered handler panics on any input. -/
def noPanics {Raw : Type} (toolsL : List (ToolDefinition Raw)) : Prop :=
  ∀ t ∈ toolsL, ∀ inp, t.fn inp ≠ .panics

end Main

theorem FS.find_set_self (fs : FS) (p : String) (e : Entry) :
    FS.find (FS.set fs p e) p = some e := by
  induction fs with
  | nil => simp [FS.set, FS.find]
  | cons hd tl ih =>
    obtain ⟨k, e0⟩ := hd
    by_cases h : k = p <;> simp [FS.set, FS.find, h, ih]

theorem FS.find_set_ne (fs : FS) (p q : String) (e : Entry) (h : q ≠ p) :
    FS.find (FS.set fs p e) q = FS.find fs q := by
  induction fs with
  | nil => simp [FS.set, FS.find, Ne.symm h]
  | cons hd tl ih =>
    obtain ⟨k, e0⟩ := hd
    by_cases hk : k = p
    · subst hk
      simp [FS.set, FS.find, Ne.symm h]
    · simp [FS.set, FS.find, hk, ih]

theorem FS.find_erase_self (fs : FS) (p : String) :
    FS.find (FS.erase fs p) p = none := by
  induction fs with
  | nil => simp [FS.erase, FS.find]
  | cons hd tl ih =>
    obtain ⟨k, e0⟩ := hd
    by_cases h : k = p <;> simp [FS.erase, FS.find, h, ih]

theorem FS.find_erase_ne (fs : FS) (p q : String) (h : q ≠ p) :
    FS.find (FS.erase fs p) q = FS.find fs q := by
  induction fs with
  | nil => simp [FS.erase, FS.find]
  | cons hd tl ih =>
    obtain ⟨k, e0⟩ := hd
    by_cases hk : k = p
    · subst hk
      simp [FS.erase, FS.find, Ne.symm h, ih]
    · simp [FS.erase, FS.find, hk, ih]

theorem mkdirStep_find_some (fs : FS) (a p : String) (v : Entry)
    (h : FS.find fs p = some v) : FS.find (mkdirStep fs a) p = some v := by
  cases hfa : FS.find fs a with
  | some e => simpa [mkdirStep, hfa] using h
  | none =>
    have hap : p ≠ a := fun he => by rw [he, hfa] at h; exact Option.noConfusion h
    simp only [mkdirStep, hfa]
    rw [FS.find_set_ne fs a p Entry.dir hap]
    exact h

theorem mkdirFold_find_some (l : List String) (fs : FS) (p : String) (v : Entry)
    (h : FS.find fs p = some v) : FS.find (l.foldl mkdirStep fs) p = some v := by
  induction l generalizing fs with
  | nil => simpa using h
  | cons a rest ih => exact ih (mkdirStep fs a) (mkdirStep_find_some fs a p v h)

theorem mkdirFold_dirs (l : List String) (fs : FS)
    (h : ∀ a ∈ l, isFileAt fs a = false) :
    ∀ a ∈ l, FS.find (l.foldl mkdirStep fs) a = some .dir := by
  induction l generalizing fs with
  | nil => intro a ha; exact absurd ha (List.not_mem_nil a)
  | cons a0 rest ih =>
    intro a ha
    have hstep : FS.find (mkdirStep fs a0) a0 = some .dir := by
      cases hfa : FS.find fs a0 with
      | some e =>
        have := h a0 (List.mem_cons_self a0 rest)
        unfold isFileAt at this
        rw [hfa] at this
        cases e with
        | file c => simp at this
        | dir => simp [mkdirStep, hfa]
      | none =>
        simp only [mkdirStep, hfa]
        exact FS.find_set_self fs a0 Entry.dir
    have hrest : ∀ b ∈ rest, isFileAt (mkdirStep fs a0) b = false := by
      intro b hb
      cases hfa : FS.find fs a0 with
      | some e =>
        simp only [mkdirStep, hfa]
        exact h b (List.mem_cons_of_mem a0 hb)
      | none =>
        simp only [mkdirStep, hfa]
        by_cases hba : b = a0
        · subst hba
          unfold isFileAt
          rw [FS.find_set_self fs b Entry.dir]
        · unfold isFileAt
          rw [FS.find_set_ne fs a0 b Entry.dir hba]
          have := h b (List.mem_cons_of_mem a0 hb)
          unfold isFileAt at this
          exact this
    rcases List.mem_cons.mp ha with rfl | hmem
    · exact mkdirFold_find_some rest (mkdirStep fs a) a Entry.dir hstep
    · exact ih (mkdirStep fs a0) hrest a hmem

theorem MkdirAll_ok (fs : FS) (p : String)
    (h : (ancestorPaths p).any (fun a => isFileAt fs a) = false) :
    MkdirAll fs p = .ok ((ancestorPaths p).foldl mkdirStep fs) := by
  unfold MkdirAll
  rw [h]
  rfl

theorem MkdirAll_find_some (fs fs1 : FS) (p q : String) (v : Entry)
    (hmk : MkdirAll fs p = .ok fs1) (h : FS.find fs q = some v) :
    FS.find fs1 q = some v := by
  unfold MkdirAll at hmk
  by_cases hc : (ancestorPaths p).any (fun a => isFileAt fs a) = true
  · rw [if_pos hc] at hmk; exact Except.noConfusion hmk
  · rw [if_neg hc] at hmk
    have : fs1 = (ancestorPaths p).foldl mkdirStep fs := (Except.ok.injEq _ _).mp hmk.symm
    rw [this]
    exact mkdirFold_find_some _ fs q v h

theorem MkdirAll_dirs (fs fs1 : FS) (p : String)
    (hmk : MkdirAll fs p = .ok fs1) :
    ∀ a ∈ ancestorPaths p, FS.find fs1 a = some .dir := by
  unfold MkdirAll at hmk
  by_cases hc : (ancestorPaths p).any (fun a => isFileAt fs a) = true
  · rw [if_pos hc] at hmk; exact Except.noConfusion hmk
  · rw [if_neg hc] at hmk
    have hfs1 : fs1 = (ancestorPaths p).foldl mkdirStep fs := (Except.ok.injEq _ _).mp hmk.symm
    have hnof : ∀ a ∈ ancestorPaths p, isFileAt fs a = false := by
      intro a ha
      by_contra hne
      exact hc (List.any_eq_true.mpr ⟨a, ha, by simpa using hne⟩)
    rw [hfs1]
    exact mkdirFold_dirs _ fs hnof

theorem osCreate_ok_eq (fs fs2 : FS) (p : String)
    (h : osCreate fs p = .ok fs2) : fs2 = FS.set fs p (.file "") := by
  unfold osCreate at h
  cases hf : FS.find fs p with
  | some e =>
    cases e with
    | dir => rw [hf] at h; exact Except.noConfusion h
    | file c => rw [hf] at h; exact ((Except.ok.injEq _ _).mp h).symm
  | none =>
    rw [hf] at h
    by_cases hd : dirExistsAt fs (parentOfAbs p) = true
    · rw [if_pos hd] at h; exact ((Except.ok.injEq _ _).mp h).symm
    · rw [if_neg hd] at h; exact Except.noConfusion h

theorem collectResults_length {Raw : Type} (toolsL : List (Main.ToolDefinition Raw))
    (msg : List (Main.CBlock Raw)) (rs : List Main.ResultBlock)
    (h : Main.collectResults toolsL msg = some rs) :
    rs.length = msg.countP Main.isToolUseB := by
  induction msg generalizing rs with
  | nil =>
    have hr : rs = [] := by
      unfold Main.collectResults at h
      exact ((Option.some.injEq _ _).mp h).symm
    subst hr
    rfl
  | cons b rest ih =>
    cases b with
    | text s =>
      unfold Main.collectResults at h
      rw [List.countP_cons]
      simp [Main.isToolUseB, ih rs h]
    | toolUse id name inp =>
      unfold Main.collectResults at h
      cases he : Main.executeTool toolsL id name inp with
      | none => rw [he] at h; exact Option.noConfusion h
      | some rb =>
        rw [he] at h
        cases hc : Main.collectResults toolsL rest with
        | none => rw [hc] at h; exact Option.noConfusion h
        | some rs0 =>
          rw [hc] at h
          have : rs = rb :: rs0 := ((Option.some.injEq _ _).mp h).symm
          subst this
          rw [List.countP_cons]
          simp [Main.isToolUseB, ih rs0 hc]

theorem collectResults_isSome_of_noPanics {Raw : Type}
    (toolsL : List (Main.ToolDefinition Raw)) (hnp : Main.noPanics toolsL)
    (msg : List (Main.CBlock Raw)) :
    ∃ rs, Main.collectResults toolsL msg = some rs := by
  induction msg with
  | nil => exact ⟨[], rfl⟩
  | cons b rest ih =>
    obtain ⟨rs0, hrs0⟩ := ih
    cases b with
    | text s => exact ⟨rs0, by unfold Main.collectResults; exact hrs0⟩
    | toolUse id name inp =>
      have hex : ∃ rb, Main.executeTool toolsL id name inp = some rb := by
        cases hf : toolsL.find? (fun t => t.name == name) with
        | none => exact ⟨⟨id, "tool not found", true⟩, by simp [Main.executeTool, hf]⟩
        | some t =>
          have hmem : t ∈ toolsL := List.mem_of_find?_eq_some hf
          cases hfn : t.fn inp with
          | ok s => exact ⟨⟨id, s, false⟩, by simp [Main.executeTool, hf, hfn]⟩
          | err e => exact ⟨⟨id, e, true⟩, by simp [Main.executeTool, hf, hfn]⟩
          | panics => exact absurd hfn (hnp t hmem inp)
      obtain ⟨rb, hrb⟩ := hex
      refine ⟨rb :: rs0, ?_⟩
      unfold Main.collectResults
      rw [hrb, hrs0]

/-- C1: the claim says the sandbox accepts exactly the candidates whose
canonical form is a path-segment descendant of a permitted root, and
rejects sibling directories sharing a root's string prefix.  The code
refutes it: `ValidatePath` uses a raw `strings.HasPrefix` test and
accepts the sibling `/media/movies-backup/x` for root `/media/movies`,
although the candidate's canonical form sits under no root
(`specContainment` is false); and `validateAndResolvePath` accepts the
same candidate by re-rooting it inside the shows folder. -/
theorem c1_validatePath_accepts_sibling :
    tools.ValidatePath ⟨"/media/shows", "/media/movies", ""⟩ "/" "/media/movies-backup/x" =
      .ok () ∧
    specContainment ["/media/shows", "/media/movies"] "/" "/media/movies-backup/x" = false ∧
    tools.validateAndResolvePath ⟨"/media/shows", "/media/movies", ""⟩ "/"
      "/media/movies-backup/x" = .ok "/media/shows/media/movies-backup/x" :=
  ⟨rfl, rfl, rfl⟩

/-- C3: the claim says no malformed tool input ever causes a panic.
The code refutes it for the package-main `read_file` handler
(`src/tools.go`), whose `json.Unmarshal` failure branch is
`panic(err)`: on any malformed payload the handler panics instead of
returning a recoverable error. -/
theorem c3_malformed_input_panics (cwd : String) (fs : FS) (m : String) :
    Main.ReadFile cwd fs (.malformed m) = .panics := rfl

/-- C10: `ValidatePath` rejects every input whose raw string contains
the two-character substring `..` anywhere — before canonicalization
and independently of the configured roots and working directory. -/
theorem c10_dotdot_rejection (env : Env) (cwd p : String)
    (h : containsDotDot p = true) :
    tools.ValidatePath env cwd p =
      .error ("path contains invalid directory traversal: " ++ p) := by
  simp [tools.ValidatePath, h]

/-- C10 witness: the ordinary filename `Movie..2020.nfo` inside the
movies root contains `..`, so resolution fails although the path's
canonical form is contained in a permitted root. -/
theorem c10_dotdot_rejection_witness :
    containsDotDot "/media/movies/Movie..2020.nfo" = true ∧
    tools.ValidatePath ⟨"/media/shows", "/media/movies", ""⟩ "/"
      "/media/movies/Movie..2020.nfo" =
      .error "path contains invalid directory traversal: /media/movies/Movie..2020.nfo" ∧
    specContainment ["/media/shows", "/media/movies"] "/" "/media/movies/Movie..2020.nfo" =
      true :=
  ⟨rfl, c10_dotdot_rejection ⟨"/media/shows", "/media/movies", ""⟩ "/"
    "/media/movies/Movie..2020.nfo" rfl, rfl⟩

/-- C2 counterexample: two tools touch paths that never passed the
containment check.  The `part_004` copy tool successfully stats,
opens, and copies from `/outside/f.txt`, a source that `ValidatePath`
rejects; and the package-main `read_file` reads `/etc/passwd` with no
containment check at all. -/
theorem c2_unvalidated_io_counterexample :
    tools.ValidatePath ⟨"/media/shows", "/media/movies", ""⟩ "/" "/outside/f.txt" =
      .error "path is not within permitted folders: /outside/f.txt" ∧
    (tools.CopyFile_v4 ⟨"/media/shows", "/media/movies", ""⟩ "/"
      [("/outside", Entry.dir), ("/outside/f.txt", Entry.file "DATA"),
       ("/media", Entry.dir), ("/media/movies", Entry.dir)]
      (.parsed ⟨"/outside/f.txt", "/media/movies/f.txt"⟩)).1 =
      .ok "Successfully copied file from /outside/f.txt to /media/movies/f.txt" ∧
    FS.find (tools.CopyFile_v4 ⟨"/media/shows", "/media/movies", ""⟩ "/"
      [("/outside", Entry.dir), ("/outside/f.txt", Entry.file "DATA"),
       ("/media", Entry.dir), ("/media/movies", Entry.dir)]
      (.parsed ⟨"/outside/f.txt", "/media/movies/f.txt"⟩)).2 "/media/movies/f.txt" =
      some (.file "DATA") ∧
    Main.ReadFile "/" [("/etc", Entry.dir), ("/etc/passwd", Entry.file "SECRET")]
      (.parsed ⟨"/etc/passwd"⟩) = .ok "SECRET" :=
  ⟨rfl, rfl, rfl, rfl⟩

/-- C4 counterexample: a failed model call does not become an ordinary
turn — `Agent.Run` returns the error and the loop terminates in the
`modelError` state, refuting "there is no error-terminal state". -/
theorem c4_model_error_terminates :
    Main.runLoop ([] : List (Main.ToolDefinition String)) 10 true ["organize /scan"]
      [.error "model API failure"] [] =
      (.modelError "model API failure", [.user "organize /scan"]) := rfl

/-- C7 counterexample: a copy whose source and destination resolve to
the same file reports success but truncates the file — `os.Create`
empties it before the stream copies, so the "source" does not keep its
content.  Here `/lib/shows/a.txt` holds "HELLO" before the call and ""
after it, while the tool reports a successful copy. -/
theorem c7_copy_self_truncates :
    (tools.CopyFile ⟨"/lib/shows", "/lib/movies", ""⟩ "/"
      [("/lib", Entry.dir), ("/lib/shows", Entry.dir),
       ("/lib/shows/a.txt", Entry.file "HELLO")]
      (.parsed ⟨"a.txt", "a.txt"⟩)).1 =
      .ok "Successfully copied file from /lib/shows/a.txt to /lib/shows/a.txt" ∧
    FS.find [("/lib", Entry.dir), ("/lib/shows", Entry.dir),
      ("/lib/shows/a.txt", Entry.file "HELLO")] "/lib/shows/a.txt" =
      some (.file "HELLO") ∧
    FS.find (tools.CopyFile ⟨"/lib/shows", "/lib/movies", ""⟩ "/"
      [("/lib", Entry.dir), ("/lib/shows", Entry.dir),
       ("/lib/shows/a.txt", Entry.file "HELLO")]
      (.parsed ⟨"a.txt", "a.txt"⟩)).2 "/lib/shows/a.txt" = some (.file "") :=
  ⟨rfl, rfl, rfl⟩

/-- C5: `executeTool` produces exactly one tool result carrying the
call's correlation id in each of the enumerated cases — handler
success, handler error, and unknown tool name — and an unknown name
yields the constant "tool not found" failure without consulting any
handler. -/
theorem c5_tool_result_correlation {Raw : Type} (toolsL : List (Main.ToolDefinition Raw))
    (id name : String) (input : Raw) :
    (∀ b, Main.executeTool toolsL id name input = some b → b.toolUseId = id) ∧
    (toolsL.find? (fun t => t.name == name) = none →
      Main.executeTool toolsL id name input = some ⟨id, "tool not found", true⟩) ∧
    (∀ t, toolsL.find? (fun t => t.name == name) = some t →
      (∀ s, t.fn input = .ok s →
        Main.executeTool toolsL id name input = some ⟨id, s, false⟩) ∧
      (∀ e, t.fn input = .err e →
        Main.executeTool toolsL id name input = some ⟨id, e, true⟩)) := by
  refine ⟨?_, ?_, ?_⟩
  · intro b hb
    cases hf : toolsL.find? (fun t => t.name == name) with
    | none =>
      simp only [Main.executeTool, hf] at hb
      rw [← (Option.some.injEq _ _).mp hb]
    | some t =>
      cases hfn : t.fn input with
      | ok s =>
        simp only [Main.executeTool, hf, hfn] at hb
        rw [← (Option.some.injEq _ _).mp hb]
      | err e =>
        simp only [Main.executeTool, hf, hfn] at hb
        rw [← (Option.some.injEq _ _).mp hb]
      | panics =>
        simp only [Main.executeTool, hf, hfn] at hb
        exact Option.noConfusion hb
  · intro hf
    simp [Main.executeTool, hf]
  · intro t hf
    exact ⟨fun s hfn => by simp [Main.executeTool, hf, hfn],
      fun e hfn => by simp [Main.executeTool, hf, hfn]⟩

/-- C5 witness: a registry holding one echo tool.  Looking up a
missing name gives the "tool not found" failure with the call's id;
looking up the echo tool gives its output with the call's id. -/
theorem c5_tool_result_correlation_witness :
    Main.executeTool
      [(⟨"echo", "echoes the input", fun s => .ok s⟩ : Main.ToolDefinition String)] "id9" "missing" "x" =
      some ⟨"id9", "tool not found", true⟩ ∧
    Main.executeTool
      [(⟨"echo", "echoes the input", fun s => .ok s⟩ : Main.ToolDefinition String)] "id9" "echo" "x" =
      some ⟨"id9", "x", false⟩ :=
  ⟨(c5_tool_result_correlation [⟨"echo", "echoes the input", fun s => .ok s⟩]
      "id9" "missing" "x").2.1 rfl,
    ((c5_tool_result_correlation [⟨"echo", "echoes the input", fun s => .ok s⟩]
      "id9" "echo" "x").2.2 _ rfl).1 "x" rfl⟩

/-- C8: within one loop iteration, the results of all tool calls of
the model response are appended together as one batched message right
after the assistant message, with one result per tool-use block, and
`readUserInput` is cleared; with zero tool calls nothing but the
assistant message is appended and `readUserInput` is set, so the loop
reads operator input before the next model invocation. -/
theorem c8_batched_tool_results {Raw : Type} (toolsL : List (Main.ToolDefinition Raw))
    (convo : List (Main.MsgParam Raw)) (msg : List (Main.CBlock Raw))
    (rs : List Main.ResultBlock)
    (h : Main.collectResults toolsL msg = some rs) :
    rs.length = msg.countP Main.isToolUseB ∧
    (rs = [] →
      Main.afterModel toolsL convo msg = some (convo ++ [.assistant msg], true)) ∧
    (rs ≠ [] →
      Main.afterModel toolsL convo msg =
        some (convo ++ [.assistant msg, .toolResults rs], false)) := by
  refine ⟨collectResults_length toolsL msg rs h, ?_, ?_⟩
  · intro hnil
    subst hnil
    simp [Main.afterModel, h]
  · intro hne
    simp [Main.afterModel, h, hne]

/-- C8 witness: a response with two tool calls around a text block
yields a single batched two-result message; the length equation counts
exactly the tool-use blocks. -/
theorem c8_batched_tool_results_witness :
    ([⟨"i1", "a", false⟩, ⟨"i2", "tool not found", true⟩] :
        List Main.ResultBlock).length =
      ([Main.CBlock.toolUse "i1" "echo" "a", Main.CBlock.text "t",
        Main.CBlock.toolUse "i2" "nope" "b"] :
        List (Main.CBlock String)).countP Main.isToolUseB ∧
    Main.afterModel [(⟨"echo", "echoes the input", fun s => .ok s⟩ : Main.ToolDefinition String)]
      [.user "hi"]
      [.toolUse "i1" "echo" "a", .text "t", .toolUse "i2" "nope" "b"] =
      some ([.user "hi",
        .assistant [.toolUse "i1" "echo" "a", .text "t", .toolUse "i2" "nope" "b"],
        .toolResults [⟨"i1", "a", false⟩, ⟨"i2", "tool not found", true⟩]], false) := by
  have h := c8_batched_tool_results
    [(⟨"echo", "echoes the input", fun s => .ok s⟩ : Main.ToolDefinition String)] [.user "hi"]
    [.toolUse "i1" "echo" "a", .text "t", .toolUse "i2" "nope" "b"]
    [⟨"i1", "a", false⟩, ⟨"i2", "tool not found", true⟩] rfl
  exact ⟨h.1, h.2.2 (by simp)⟩

/-- C2 (amended): in the tools package, every handler checks each of
its path arguments with its sandbox predicate before any filesystem
operation — when a validation fails the handler returns the failure
for all filesystem states alike, and the mutating handlers leave the
filesystem untouched.  (The exceptions proved in the counterexample —
the `part_004` copy source and the package-main `read_file` — are
exactly what the amendment carves out.) -/
theorem c2_validation_gates_io (env : Env) (cwd : String) :
    (∀ (inp : tools.ReadFileInput) (e : String),
      tools.ValidatePath env cwd inp.path = .error e →
      ∀ fs : FS, tools.ReadFile env cwd fs (.parsed inp) =
        .err ("access denied: " ++ e)) ∧
    (∀ (inp : tools.ListDirectoryInput) (e : String),
      tools.ValidatePath env cwd inp.path = .error e →
      ∀ fs : FS, tools.ListDirectory env cwd fs (.parsed inp) =
        .err ("access denied: " ++ e)) ∧
    (∀ (inp : tools.CopyFileInput) (e : String),
      tools.validateAndResolvePath env cwd inp.initialPath = .error e →
      ∀ fs : FS, tools.CopyFile env cwd fs (.parsed inp) =
        (.err ("invalid source path: " ++ e), fs)) ∧
    (∀ (inp : tools.CopyFileInput) (s e : String),
      tools.validateAndResolvePath env cwd inp.initialPath = .ok s →
      tools.validateAndResolvePath env cwd inp.endingPath = .error e →
      ∀ fs : FS, tools.CopyFile env cwd fs (.parsed inp) =
        (.err ("invalid destination path: " ++ e), fs)) ∧
    (∀ (inp : tools.RenameJellyfinMediaInput) (e : String),
      tools.validateJellyfinPath env cwd inp.sourcePath = .error e →
      ∀ fs : FS, tools.RenameJellyfinMedia env cwd fs (.parsed inp) =
        (.err ("invalid source path: " ++ e), fs)) ∧
    (∀ (inp : tools.RenameJellyfinMediaInput) (s e : String),
      tools.validateJellyfinPath env cwd inp.sourcePath = .ok s →
      tools.validateJellyfinPath env cwd inp.targetPath = .error e →
      ∀ fs : FS, tools.RenameJellyfinMedia env cwd fs (.parsed inp) =
        (.err ("invalid target path: " ++ e), fs)) := by
  refine ⟨?_, ?_, ?_, ?_, ?_, ?_⟩
  · intro inp e hv fs
    simp [tools.ReadFile, unmarshal, hv]
  · intro inp e hv fs
    simp [tools.ListDirectory, unmarshal, hv]
  · intro inp e hv fs
    simp [tools.CopyFile, unmarshal, hv]
  · intro inp s e hv1 hv2 fs
    simp [tools.CopyFile, unmarshal, hv1, hv2]
  · intro inp e hv fs
    simp [tools.RenameJellyfinMedia, unmarshal, hv]
  · intro inp s e hv1 hv2 fs
    simp [tools.RenameJellyfinMedia, unmarshal, hv1, hv2]

/-- C2 witness: with the usual roots, `/etc/passwd` fails validation,
and the read tool reports the containment failure on every filesystem
state — in particular on one where the file exists with secret
content, which is therefore never read. -/
theorem c2_validation_gates_io_witness :
    tools.ReadFile ⟨"/media/shows", "/media/movies", ""⟩ "/"
      [("/etc", Entry.dir), ("/etc/passwd", Entry.file "SECRET")]
      (.parsed ⟨"/etc/passwd", 0⟩) =
      .err "access denied: path is not within permitted folders: /etc/passwd" :=
  (c2_validation_gates_io ⟨"/media/shows", "/media/movies", ""⟩ "/").1
    ⟨"/etc/passwd", 0⟩ "path is not within permitted folders: /etc/passwd" rfl
    [("/etc", Entry.dir), ("/etc/passwd", Entry.file "SECRET")]

/-- C4 (amended): with every scripted model call succeeding and no
panicking handler, the loop never reaches the `modelError` state: it
either exits cleanly on operator-input exhaustion or the script/fuel
artifact runs out.  Tool handler errors are absorbed into failure
results along the way and never terminate the loop.  (The
unamended claim fails at `c4_model_error_terminates`: a failed model
call is returned, not absorbed.) -/
theorem c4_loop_termination {Raw : Type} (toolsL : List (Main.ToolDefinition Raw))
    (hnp : Main.noPanics toolsL) :
    ∀ (fuel : Nat) (b : Bool) (inputs : List String)
      (responses : List (Except String (List (Main.CBlock Raw))))
      (convo : List (Main.MsgParam Raw)),
      Main.allOkB responses = true →
      (Main.runLoop toolsL fuel b inputs responses convo).1 = .cleanExit ∨
      (Main.runLoop toolsL fuel b inputs responses convo).1 = .stuck := by
  intro fuel
  induction fuel with
  | zero => intro b inputs responses convo _; right; rfl
  | succ n ih =>
    intro b inputs responses convo hok
    cases b with
    | true =>
      cases inputs with
      | nil => left; rfl
      | cons u us =>
        cases responses with
        | nil => right; rfl
        | cons r rs =>
          cases r with
          | error e => simp [Main.allOkB] at hok
          | ok msg =>
            obtain ⟨rs0, hrs0⟩ := collectResults_isSome_of_noPanics toolsL hnp msg
            have hok' : Main.allOkB rs = true := by
              simpa [Main.allOkB] using hok
            by_cases hnil : rs0 = []
            · subst hnil
              simp only [Main.runLoop, Main.afterModel, hrs0]
              simpa using ih true us rs (convo ++ [.user u, .assistant msg]) hok'
            · simp only [Main.runLoop, Main.afterModel, hrs0, if_neg hnil]
              simpa using ih false us rs
                (convo ++ [.user u, .assistant msg, .toolResults rs0]) hok'
    | false =>
      cases responses with
      | nil => right; rfl
      | cons r rs =>
        cases r with
        | error e => simp [Main.allOkB] at hok
        | ok msg =>
          obtain ⟨rs0, hrs0⟩ := collectResults_isSome_of_noPanics toolsL hnp msg
          have hok' : Main.allOkB rs = true := by
            simpa [Main.allOkB] using hok
          by_cases hnil : rs0 = []
          · subst hnil
            simp only [Main.runLoop, Main.afterModel, hrs0]
            simpa using ih true inputs rs (convo ++ [.assistant msg]) hok'
          · simp only [Main.runLoop, Main.afterModel, hrs0, if_neg hnil]
            simpa using ih false inputs rs
              (convo ++ [.assistant msg, .toolResults rs0]) hok'

/-- C4 witness: a run in which a tool handler raises an error (its
result is failure-flagged and absorbed) still ends cleanly when the
operator input stream runs out. -/
theorem c4_loop_termination_witness :
    (Main.runLoop [(⟨"echo", "echoes the input", fun s => .err s⟩ : Main.ToolDefinition String)]
      10 true ["hi"] [.ok [.toolUse "i1" "echo" "bad"], .ok [.text "done"]] []).1 =
        .cleanExit ∨
    (Main.runLoop [(⟨"echo", "echoes the input", fun s => .err s⟩ : Main.ToolDefinition String)]
      10 true ["hi"] [.ok [.toolUse "i1" "echo" "bad"], .ok [.text "done"]] []).1 =
        .stuck :=
  c4_loop_termination [⟨"echo", "echoes the input", fun s => .err s⟩]
    (by intro t ht inp
        simp only [List.mem_singleton] at ht
        subst ht
        simp)
    10 true ["hi"] [.ok [.toolUse "i1" "echo" "bad"], .ok [.text "done"]] [] rfl

/-- C9: on a sandbox-validated path, the read tool rejects denylisted
image/video extensions case-insensitively before any file is opened
(the outcome is the same for every filesystem state); otherwise a byte
limit of zero returns the whole content of the file and a positive
limit returns the first `min(limit, size)` bytes — at most `limit`
bytes taken from the start. -/
theorem c9_read_file_behavior (env : Env) (cwd : String) (inp : tools.ReadFileInput)
    (hv : tools.ValidatePath env cwd inp.path = .ok ()) :
    (imageVideoExts.contains (asciiLower (filepath.Ext inp.path)) = true →
      ∀ fs : FS, tools.ReadFile env cwd fs (.parsed inp) =
        .err ("cannot read image or video files: " ++ inp.path)) ∧
    (imageVideoExts.contains (asciiLower (filepath.Ext inp.path)) = false →
      ∀ (fs : FS) (c : String),
        FS.find fs (filepath.Abs cwd inp.path) = some (.file c) →
        (inp.bytes = 0 → tools.ReadFile env cwd fs (.parsed inp) = .ok c) ∧
        (0 < inp.bytes →
          tools.ReadFile env cwd fs (.parsed inp) = .ok (strTake c inp.bytes.toNat) ∧
          strLen (strTake c inp.bytes.toNat) ≤ inp.bytes.toNat)) := by
  constructor
  · intro hext fs
    have hmem : asciiLower (filepath.Ext inp.path) ∈ imageVideoExts := by
      simpa using hext
    simp [tools.ReadFile, unmarshal, hv, hmem]
  · intro hext fs c hf
    have hmem : asciiLower (filepath.Ext inp.path) ∉ imageVideoExts := by
      simpa using hext
    constructor
    · intro h0
      simp [tools.ReadFile, unmarshal, hv, hmem, h0, hf]
    · intro hpos
      have h0 : ¬ inp.bytes = 0 := by omega
      have hneg : ¬ inp.bytes < 0 := by omega
      constructor
      · simp [tools.ReadFile, unmarshal, hv, hmem, h0, hneg, hf]
      · unfold strLen strTake
        simp [List.length_take]

/-- C9 witness: with the movies root configured, reading `Film.mkv`
fails with the binary-extension error even on an empty filesystem (no
file was opened); reading `i.nfo` with limit 0 yields the whole
content and with limit 3 its first three bytes. -/
theorem c9_read_file_behavior_witness :
    tools.ReadFile ⟨"/lib/shows", "/lib/movies", ""⟩ "/" []
      (.parsed ⟨"/lib/movies/Film.mkv", 0⟩) =
      .err "cannot read image or video files: /lib/movies/Film.mkv" ∧
    tools.ReadFile ⟨"/lib/shows", "/lib/movies", ""⟩ "/"
      [("/lib/movies", Entry.dir), ("/lib/movies/i.nfo", Entry.file "hello")]
      (.parsed ⟨"/lib/movies/i.nfo", 0⟩) = .ok "hello" ∧
    tools.ReadFile ⟨"/lib/shows", "/lib/movies", ""⟩ "/"
      [("/lib/movies", Entry.dir), ("/lib/movies/i.nfo", Entry.file "hello")]
      (.parsed ⟨"/lib/movies/i.nfo", 3⟩) = .ok "hel" ∧
    strLen "hel" ≤ 3 := by
  refine ⟨?_, ?_, ?_, ?_⟩
  · exact (c9_read_file_behavior ⟨"/lib/shows", "/lib/movies", ""⟩ "/"
      ⟨"/lib/movies/Film.mkv", 0⟩ rfl).1 rfl []
  · exact ((c9_read_file_behavior ⟨"/lib/shows", "/lib/movies", ""⟩ "/"
      ⟨"/lib/movies/i.nfo", 0⟩ rfl).2 rfl
      [("/lib/movies", Entry.dir), ("/lib/movies/i.nfo", Entry.file "hello")]
      "hello" rfl).1 rfl
  · exact (((c9_read_file_behavior ⟨"/lib/shows", "/lib/movies", ""⟩ "/"
      ⟨"/lib/movies/i.nfo", 3⟩ rfl).2 rfl
      [("/lib/movies", Entry.dir), ("/lib/movies/i.nfo", Entry.file "hello")]
      "hello" rfl).2 (by decide)).1
  · exact (((c9_read_file_behavior ⟨"/lib/shows", "/lib/movies", ""⟩ "/"
      ⟨"/lib/movies/i.nfo", 3⟩ rfl).2 rfl
      [("/lib/movies", Entry.dir), ("/lib/movies/i.nfo", Entry.file "hello")]
      "hello" rfl).2 (by decide)).2

/-- C6: for a move whose source and target both passed validation and
whose source exists, an already-existing target makes the call fail
with the conflict error, and neither the source entry nor the target
entry changes (the hypothesis that no file blocks the target's parent
chain holds on any real filesystem containing the target); and
whenever the call succeeds, the source path no longer resolves to an
entry while the target path holds exactly the entry the source held. -/
theorem c6_rename_conflict_and_success (env : Env) (cwd : String) (fs : FS)
    (inp : tools.RenameJellyfinMediaInput) (srcP tgtP : String)
    (h1 : tools.validateJellyfinPath env cwd inp.sourcePath = .ok srcP)
    (h2 : tools.validateJellyfinPath env cwd inp.targetPath = .ok tgtP) :
    (∀ es et, FS.find fs (filepath.Abs cwd srcP) = some es →
      FS.find fs (filepath.Abs cwd tgtP) = some et →
      (ancestorPaths (filepath.Abs cwd (filepath.Dir tgtP))).any
        (fun a => isFileAt fs a) = false →
      (tools.RenameJellyfinMedia env cwd fs (.parsed inp)).1 =
        .err ("target path already exists: " ++ tgtP) ∧
      FS.find (tools.RenameJellyfinMedia env cwd fs (.parsed inp)).2
        (filepath.Abs cwd srcP) = some es ∧
      FS.find (tools.RenameJellyfinMedia env cwd fs (.parsed inp)).2
        (filepath.Abs cwd tgtP) = some et) ∧
    (∀ (msg : String) (fs2 : FS),
      tools.RenameJellyfinMedia env cwd fs (.parsed inp) = (.ok msg, fs2) →
      FS.find fs2 (filepath.Abs cwd srcP) = none ∧
      ∃ e, FS.find fs (filepath.Abs cwd srcP) = some e ∧
        FS.find fs2 (filepath.Abs cwd tgtP) = some e) := by
  constructor
  · intro es et hs ht hanc
    have hmk := MkdirAll_ok fs (filepath.Abs cwd (filepath.Dir tgtP)) hanc
    have hs1 : FS.find ((ancestorPaths (filepath.Abs cwd (filepath.Dir tgtP))).foldl
        mkdirStep fs) (filepath.Abs cwd srcP) = some es :=
      mkdirFold_find_some _ fs _ es hs
    have ht1 : FS.find ((ancestorPaths (filepath.Abs cwd (filepath.Dir tgtP))).foldl
        mkdirStep fs) (filepath.Abs cwd tgtP) = some et :=
      mkdirFold_find_some _ fs _ et ht
    have hrun : tools.RenameJellyfinMedia env cwd fs (.parsed inp) =
        (.err ("target path already exists: " ++ tgtP),
          (ancestorPaths (filepath.Abs cwd (filepath.Dir tgtP))).foldl mkdirStep fs) := by
      simp [tools.RenameJellyfinMedia, unmarshal, h1, h2, hs, hmk, ht1]
    rw [hrun]
    exact ⟨rfl, hs1, ht1⟩
  · intro msg fs2 hrun
    simp only [tools.RenameJellyfinMedia, unmarshal, h1, h2] at hrun
    cases hstat : FS.find fs (filepath.Abs cwd srcP) with
    | none => simp [hstat] at hrun
    | some es =>
      simp only [hstat, Option.isNone_some, Bool.false_eq_true, if_false] at hrun
      cases hmk : MkdirAll fs (filepath.Abs cwd (filepath.Dir tgtP)) with
      | error e => simp [hmk] at hrun
      | ok fs1 =>
        simp only [hmk] at hrun
        cases htgt : FS.find fs1 (filepath.Abs cwd tgtP) with
        | some et => simp [htgt] at hrun
        | none =>
          simp only [htgt, Option.isSome_none, Bool.false_eq_true, if_false] at hrun
          cases hsrc1 : FS.find fs1 (filepath.Abs cwd srcP) with
          | none => simp [osRename, hsrc1] at hrun
          | some e =>
            by_cases hanc2 : isProperAncestorOf (filepath.Abs cwd srcP)
                (filepath.Abs cwd tgtP) = true
            · simp [osRename, hsrc1, hanc2] at hrun
            · by_cases hpar : dirExistsAt fs1 (parentOfAbs (filepath.Abs cwd tgtP)) = true
              · simp only [osRename, hsrc1, hanc2, hpar, Bool.false_eq_true, if_false,
                  if_true] at hrun
                have hfs : fs2 = FS.set (FS.erase fs1 (filepath.Abs cwd srcP))
                    (filepath.Abs cwd tgtP) e := by
                  have := (Prod.mk.injEq _ _ _ _).mp hrun
                  exact this.2.symm
                have hne : filepath.Abs cwd srcP ≠ filepath.Abs cwd tgtP := by
                  intro hEq
                  rw [hEq, htgt] at hsrc1
                  exact Option.noConfusion hsrc1
                have hes : FS.find fs1 (filepath.Abs cwd srcP) = some es :=
                  MkdirAll_find_some fs fs1 _ _ es hmk hstat
                have hee : e = es := by
                  rw [hes] at hsrc1
                  exact ((Option.some.injEq _ _).mp hsrc1).symm
                refine ⟨?_, es, rfl, ?_⟩
                · rw [hfs, FS.find_set_ne _ _ _ _ hne, FS.find_erase_self]
                · rw [hfs, FS.find_set_self]
                  exact congrArg some hee
              · simp [osRename, hsrc1, hanc2, hpar] at hrun

/-- C6 witness: at the conflict instance moving `A.mkv` onto the
existing `B.mkv` the tool reports the conflict and both files keep
their entries; at the success instance (no `B.mkv` beforehand) the
source entry is gone and the target holds the moved file. -/
theorem c6_rename_witness :
    ((tools.RenameJellyfinMedia ⟨"/lib/shows", "/lib/movies", ""⟩ "/"
      [("/lib", Entry.dir), ("/lib/movies", Entry.dir),
       ("/lib/movies/A.mkv", Entry.file "AA"), ("/lib/movies/B.mkv", Entry.file "BB")]
      (.parsed ⟨"/lib/movies/A.mkv", "/lib/movies/B.mkv"⟩)).1 =
        .err "target path already exists: /lib/movies/B.mkv" ∧
      FS.find (tools.RenameJellyfinMedia ⟨"/lib/shows", "/lib/movies", ""⟩ "/"
        [("/lib", Entry.dir), ("/lib/movies", Entry.dir),
         ("/lib/movies/A.mkv", Entry.file "AA"), ("/lib/movies/B.mkv", Entry.file "BB")]
        (.parsed ⟨"/lib/movies/A.mkv", "/lib/movies/B.mkv"⟩)).2
        (filepath.Abs "/" "/lib/movies/A.mkv") = some (.file "AA") ∧
      FS.find (tools.RenameJellyfinMedia ⟨"/lib/shows", "/lib/movies", ""⟩ "/"
        [("/lib", Entry.dir), ("/lib/movies", Entry.dir),
         ("/lib/movies/A.mkv", Entry.file "AA"), ("/lib/movies/B.mkv", Entry.file "BB")]
        (.parsed ⟨"/lib/movies/A.mkv", "/lib/movies/B.mkv"⟩)).2
        (filepath.Abs "/" "/lib/movies/B.mkv") = some (.file "BB")) ∧
    (FS.find (tools.RenameJellyfinMedia ⟨"/lib/shows", "/lib/movies", ""⟩ "/"
      [("/lib", Entry.dir), ("/lib/movies", Entry.dir),
       ("/lib/movies/A.mkv", Entry.file "AA")]
      (.parsed ⟨"/lib/movies/A.mkv", "/lib/movies/B.mkv"⟩)).2
      (filepath.Abs "/" "/lib/movies/A.mkv") = none ∧
    ∃ e, FS.find [("/lib", Entry.dir), ("/lib/movies", Entry.dir),
        ("/lib/movies/A.mkv", Entry.file "AA")]
        (filepath.Abs "/" "/lib/movies/A.mkv") = some e ∧
      FS.find (tools.RenameJellyfinMedia ⟨"/lib/shows", "/lib/movies", ""⟩ "/"
        [("/lib", Entry.dir), ("/lib/movies", Entry.dir),
         ("/lib/movies/A.mkv", Entry.file "AA")]
        (.parsed ⟨"/lib/movies/A.mkv", "/lib/movies/B.mkv"⟩)).2
        (filepath.Abs "/" "/lib/movies/B.mkv") = some e) :=
  ⟨(c6_rename_conflict_and_success ⟨"/lib/shows", "/lib/movies", ""⟩ "/"
      [("/lib", Entry.dir), ("/lib/movies", Entry.dir),
       ("/lib/movies/A.mkv", Entry.file "AA"), ("/lib/movies/B.mkv", Entry.file "BB")]
      ⟨"/lib/movies/A.mkv", "/lib/movies/B.mkv"⟩
      "/lib/movies/A.mkv" "/lib/movies/B.mkv" rfl rfl).1
      (.file "AA") (.file "BB") rfl rfl rfl,
    (c6_rename_conflict_and_success ⟨"/lib/shows", "/lib/movies", ""⟩ "/"
      [("/lib", Entry.dir), ("/lib/movies", Entry.dir),
       ("/lib/movies/A.mkv", Entry.file "AA")]
      ⟨"/lib/movies/A.mkv", "/lib/movies/B.mkv"⟩
      "/lib/movies/A.mkv" "/lib/movies/B.mkv" rfl rfl).2
      "Successfully moved/renamed /lib/movies/A.mkv to /lib/movies/B.mkv" _ rfl⟩

/-- C7: when a copy with validated source and destination resolving to
distinct OS paths succeeds, the destination holds exactly the byte
content the source held before the call, the source entry is
unchanged, and every directory on the destination's parent chain
exists afterwards (missing ones were created).  Distinctness is needed
because a self-copy truncates the file (`c7_copy_self_truncates`). -/
theorem c7_copy_roundtrip (env : Env) (cwd : String) (fs : FS)
    (inp : tools.CopyFileInput) (srcR dstR : String)
    (h1 : tools.validateAndResolvePath env cwd inp.initialPath = .ok srcR)
    (h2 : tools.validateAndResolvePath env cwd inp.endingPath = .ok dstR)
    (hne : filepath.Abs cwd srcR ≠ filepath.Abs cwd dstR)
    (msg : String) (fs2 : FS)
    (hrun : tools.CopyFile env cwd fs (.parsed inp) = (.ok msg, fs2)) :
    ∃ c, FS.find fs (filepath.Abs cwd srcR) = some (.file c) ∧
      FS.find fs2 (filepath.Abs cwd dstR) = some (.file c) ∧
      FS.find fs2 (filepath.Abs cwd srcR) = FS.find fs (filepath.Abs cwd srcR) ∧
      ∀ a ∈ ancestorPaths (filepath.Abs cwd (filepath.Dir dstR)),
        a ≠ filepath.Abs cwd dstR → FS.find fs2 a = some .dir := by
  simp only [tools.CopyFile, unmarshal, h1, h2] at hrun
  cases hstat : FS.find fs (filepath.Abs cwd srcR) with
  | none => simp [hstat] at hrun
  | some e0 =>
    simp only [hstat, Option.isNone_some, Bool.false_eq_true, if_false] at hrun
    cases hmk : MkdirAll fs (filepath.Abs cwd (filepath.Dir dstR)) with
    | error e => simp [hmk] at hrun
    | ok fs1 =>
      simp only [hmk] at hrun
      cases hopen : FS.find fs1 (filepath.Abs cwd srcR) with
      | none => simp [hopen] at hrun
      | some eop =>
        simp only [hopen] at hrun
        cases hcr : osCreate fs1 (filepath.Abs cwd dstR) with
        | error e => simp [hcr] at hrun
        | ok fsC =>
          simp only [hcr] at hrun
          cases hcpy : FS.find fsC (filepath.Abs cwd srcR) with
          | none => simp [hcpy] at hrun
          | some ec =>
            cases ec with
            | dir => simp [hcpy] at hrun
            | file c =>
              simp only [hcpy] at hrun
              have hfs : fs2 = FS.set fsC (filepath.Abs cwd dstR) (.file c) := by
                have := (Prod.mk.injEq _ _ _ _).mp hrun
                exact this.2.symm
              have hC : fsC = FS.set fs1 (filepath.Abs cwd dstR) (.file "") :=
                osCreate_ok_eq fs1 fsC (filepath.Abs cwd dstR) hcr
              have hsrc1 : FS.find fs1 (filepath.Abs cwd srcR) = some (.file c) := by
                have : FS.find fsC (filepath.Abs cwd srcR) =
                    FS.find fs1 (filepath.Abs cwd srcR) := by
                  rw [hC, FS.find_set_ne _ _ _ _ hne]
                rw [← this, hcpy]
              have h10 : FS.find fs1 (filepath.Abs cwd srcR) = some e0 :=
                MkdirAll_find_some fs fs1 _ _ e0 hmk hstat
              have he0 : e0 = Entry.file c := by
                rw [h10] at hsrc1
                exact (Option.some.injEq _ _).mp hsrc1
              refine ⟨c, ?_, ?_, ?_, ?_⟩
              · rw [he0]
              · rw [hfs, FS.find_set_self]
              · rw [hfs, FS.find_set_ne _ _ _ _ hne, hC,
                  FS.find_set_ne _ _ _ _ hne]
                exact h10
              · intro a ha hadst
                have hd1 : FS.find fs1 a = some .dir := MkdirAll_dirs fs fs1 _ hmk a ha
                rw [hfs, FS.find_set_ne _ _ _ _ hadst, hC,
                  FS.find_set_ne _ _ _ _ hadst, hd1]

/-- C7 witness: copying `a.mkv` (content "HELLO") to `b/c.mkv` inside
the shows root succeeds, creates the missing parent directory `b`,
produces a destination with identical bytes, and leaves the source
entry untouched. -/
theorem c7_copy_roundtrip_witness :
    ∃ c, FS.find [("/lib", Entry.dir), ("/lib/shows", Entry.dir),
        ("/lib/shows/a.mkv", Entry.file "HELLO")]
        (filepath.Abs "/" "/lib/shows/a.mkv") = some (.file c) ∧
      FS.find (tools.CopyFile ⟨"/lib/shows", "/lib/movies", ""⟩ "/"
        [("/lib", Entry.dir), ("/lib/shows", Entry.dir),
         ("/lib/shows/a.mkv", Entry.file "HELLO")]
        (.parsed ⟨"a.mkv", "b/c.mkv"⟩)).2
        (filepath.Abs "/" "/lib/shows/b/c.mkv") = some (.file c) ∧
      FS.find (tools.CopyFile ⟨"/lib/shows", "/lib/movies", ""⟩ "/"
        [("/lib", Entry.dir), ("/lib/shows", Entry.dir),
         ("/lib/shows/a.mkv", Entry.file "HELLO")]
        (.parsed ⟨"a.mkv", "b/c.mkv"⟩)).2
        (filepath.Abs "/" "/lib/shows/a.mkv") =
        FS.find [("/lib", Entry.dir), ("/lib/shows", Entry.dir),
          ("/lib/shows/a.mkv", Entry.file "HELLO")]
          (filepath.Abs "/" "/lib/shows/a.mkv") ∧
      ∀ a ∈ ancestorPaths (filepath.Abs "/" (filepath.Dir "/lib/shows/b/c.mkv")),
        a ≠ filepath.Abs "/" "/lib/shows/b/c.mkv" →
        FS.find (tools.CopyFile ⟨"/lib/shows", "/lib/movies", ""⟩ "/"
          [("/lib", Entry.dir), ("/lib/shows", Entry.dir),
           ("/lib/shows/a.mkv", Entry.file "HELLO")]
          (.parsed ⟨"a.mkv", "b/c.mkv"⟩)).2 a = some .dir :=
  c7_copy_roundtrip ⟨"/lib/shows", "/lib/movies", ""⟩ "/"
    [("/lib", Entry.dir), ("/lib/shows", Entry.dir),
     ("/lib/shows/a.mkv", Entry.file "HELLO")]
    ⟨"a.mkv", "b/c.mkv"⟩ "/lib/shows/a.mkv" "/lib/shows/b/c.mkv" rfl rfl
    (by decide)
    "Successfully copied file from /lib/shows/a.mkv to /lib/shows/b/c.mkv" _ rfl
